import Mathlib

/-!
Shallow embedding of `src/flatty/flatty.py` (module `flatty.flatty`).

The Python module is a type-directed flatten/unflatten engine.  We model

* declared types (Python classes, the flatty container classes, and the
  "heterogeneous template" list/dict-of-types instances) as `PTy`,
* runtime values (including class objects appearing as values, which happens
  through class-attribute fallback in `getattr`) as `PVal`,
* raised exceptions as `PErr`,
* the converter registry `ConvertManager._convert_dict` as an association
  list `Registry`, and
* the mutually recursive converter machinery as fuel-indexed functions
  (`flatit`, `unflatit`, ...).  Fuel only bounds recursion depth; running out
  of fuel yields the distinguished error `PErr.fuelOut`, which is never
  produced by any modelled Python behaviour.

Modelling notes (deliberate, claim-irrelevant abstractions):
* Python `str(cls)` representations are modelled by the inductive `CName`;
  two classes have equal `str` exactly when their `CName`s are equal.  In
  particular every class produced by `TypedList.set_type` renders as the
  same `CName.typedListN`, as in Python (same `__name__`/`__module__`).
* Python dict iteration order is modelled as association-list order.
* Instances of `TypedList`/`TypedDict` are modelled as plain lists/dicts
  (their converters accept plain lists/dicts anyway).
* `issubclass` with a non-class second argument (which raises in Python)
  is modelled as a non-match; the default registry only holds classes.
-/

/-- Declared types: Python classes and the two "template" instances
(a plain list/dict whose elements are types), as they may appear in a
flatty schema declaration.  `PTy.noneT` is the `None` object used as the
"untyped" declared type, `noneClass` is `types.NoneType`. -/
inductive PTy where
  | noneT : PTy
  | noneClass : PTy
  | intT : PTy
  | strT : PTy
  | boolT : PTy
  | dateT : PTy
  | datetimeT : PTy
  | timeT : PTy
  | schemaBase : PTy
  | schemaT : String → List (String × PTy) → PTy
  | typedListT : Option PTy → PTy
  | typedDictT : Option PTy → PTy
  | listT : PTy
  | dictT : PTy
  | typeClass : PTy
  | listTemplate : List PTy → PTy
  | dictTemplate : List (String × PTy) → PTy

/-- Runtime values.  `inst cls attrs` is a `Schema` instance carrying its
class (so the class-attribute fallback of `getattr` is available);
`typeMarker t` is a class object used as a value. -/
inductive PVal where
  | none : PVal
  | int : Int → PVal
  | str : String → PVal
  | bool : Bool → PVal
  | date : Nat → Nat → Nat → PVal
  | datetime : Nat → Nat → Nat → Nat → Nat → Nat → Nat → PVal
  | time : Nat → Nat → Nat → Nat → PVal
  | list : List PVal → PVal
  | dict : List (String × PVal) → PVal
  | inst : PTy → List (String × PVal) → PVal
  | typeMarker : PTy → PVal

/-- Exceptions.  `typeError` covers Python `TypeError` (the spec's
`TypeMismatch`), `formatError` covers `ValueError` from `strptime`
(the spec's `FormatError`), `cantGuess` is the `Exception("Can't guess
type associated with: ...")` raised in the `to_obj` `get_sub_type`
helpers (the spec's `UnresolvableElementType`), `attributeError` covers
`AttributeError` from calling a missing method, `otherError` covers the
remaining unmodelled runtime failures and `fuelOut` is the model's
fuel-exhaustion marker. -/
inductive PErr where
  | typeError : PErr
  | formatError : PErr
  | cantGuess : PErr
  | attributeError : PErr
  | otherError : PErr
  | fuelOut : PErr
  deriving DecidableEq, Repr

/-- The `str(cls)` representation of a class, up to injectivity: two model
classes have equal Python `str` iff they map to the same `CName`.  All
`TypedList.set_type` products share `typedListN` (same name and module),
which is what makes the registry's string comparison match them. -/
inductive CName where
  | noneN | intN | strN | boolN | dateN | datetimeN | timeN
  | schemaBaseN | typedListN | typedDictN | listN | dictN | typeN
  | userSchemaN : String → CName
  | listTemplateN | dictTemplateN
  deriving DecidableEq, Repr

/-- Model of `inspect.isclass` on a declared-type slot. -/
def isclass : PTy → Bool
  | .noneT => false
  | .listTemplate _ => false
  | .dictTemplate _ => false
  | _ => true

/-- The class used for dispatch: `obj_type if inspect.isclass(obj_type)
else obj_type.__class__`. -/
def dispatchClass : PTy → PTy
  | .noneT => .noneClass
  | .listTemplate _ => .listT
  | .dictTemplate _ => .dictT
  | t => t

/-- Model of `str(cls)` for classes (after `dispatchClass`, templates never
reach a string comparison as themselves; we still give them reprs). -/
def strRepr : PTy → CName
  | .noneT => .noneN
  | .noneClass => .noneN
  | .intT => .intN
  | .strT => .strN
  | .boolT => .boolN
  | .dateT => .dateN
  | .datetimeT => .datetimeN
  | .timeT => .timeN
  | .schemaBase => .schemaBaseN
  | .schemaT n _ => .userSchemaN n
  | .typedListT _ => .typedListN
  | .typedDictT _ => .typedDictN
  | .listT => .listN
  | .dictT => .dictN
  | .typeClass => .typeN
  | .listTemplate _ => .listTemplateN
  | .dictTemplate _ => .dictTemplateN

/-- Python truthiness of a declared-type slot (`if attr_type:`):
`None` and empty containers are falsy, classes are truthy. -/
def pyTruthy : PTy → Bool
  | .noneT => false
  | .listTemplate [] => false
  | .dictTemplate [] => false
  | _ => true

/-- Model of `__name__` of a class, for `MetaBaseFlattyType.__eq__`. -/
def className : PTy → String
  | .noneT => "None"
  | .noneClass => "NoneType"
  | .intT => "int"
  | .strT => "str"
  | .boolT => "bool"
  | .dateT => "date"
  | .datetimeT => "datetime"
  | .timeT => "time"
  | .schemaBase => "Schema"
  | .schemaT n _ => n
  | .typedListT _ => "TypedList"
  | .typedDictT _ => "TypedDict"
  | .listT => "list"
  | .dictT => "dict"
  | .typeClass => "type"
  | .listTemplate _ => "list-template"
  | .dictTemplate _ => "dict-template"

/-- Does `MetaBaseFlattyType` govern comparison of this class (i.e. is it a
`BaseFlattyType` subclass)? -/
def isFlattyCls : PTy → Bool
  | .typedListT _ => true
  | .typedDictT _ => true
  | _ => false

mutual
/-- Structural (identity) equality of declared-type slots, modelling Python
object identity of class objects and `==` of template lists. -/
def PTy.beq : PTy → PTy → Bool
  | .noneT, .noneT => true
  | .noneClass, .noneClass => true
  | .intT, .intT => true
  | .strT, .strT => true
  | .boolT, .boolT => true
  | .dateT, .dateT => true
  | .datetimeT, .datetimeT => true
  | .timeT, .timeT => true
  | .schemaBase, .schemaBase => true
  | .schemaT n₁ a₁, .schemaT n₂ a₂ => n₁ == n₂ && PTy.beqAssoc a₁ a₂
  | .typedListT o₁, .typedListT o₂ =>
      (match o₁, o₂ with
       | Option.none, Option.none => true
       | some t₁, some t₂ => PTy.beq t₁ t₂
       | _, _ => false)
  | .typedDictT o₁, .typedDictT o₂ =>
      (match o₁, o₂ with
       | Option.none, Option.none => true
       | some t₁, some t₂ => PTy.beq t₁ t₂
       | _, _ => false)
  | .listT, .listT => true
  | .dictT, .dictT => true
  | .typeClass, .typeClass => true
  | .listTemplate l₁, .listTemplate l₂ => PTy.beqList l₁ l₂
  | .dictTemplate a₁, .dictTemplate a₂ => PTy.beqAssoc a₁ a₂
  | _, _ => false

def PTy.beqList : List PTy → List PTy → Bool
  | [], [] => true
  | t₁ :: l₁, t₂ :: l₂ => PTy.beq t₁ t₂ && PTy.beqList l₁ l₂
  | _, _ => false

def PTy.beqAssoc : List (String × PTy) → List (String × PTy) → Bool
  | [], [] => true
  | (k₁, t₁) :: l₁, (k₂, t₂) :: l₂ =>
      k₁ == k₂ && PTy.beq t₁ t₂ && PTy.beqAssoc l₁ l₂
  | _, _ => false
end

/-- Python `==` on classes: `MetaBaseFlattyType.__eq__` compares by
`__name__` when a flatty container class is involved; ordinary classes
compare by identity (structural equality in the model). -/
def pyClassEq (a b : PTy) : Bool :=
  if isFlattyCls a || isFlattyCls b then
    isclass a && isclass b && (className a == className b)
  else PTy.beq a b

/-- Model of `issubclass(sub, sup)` including `MetaBaseFlattyType.__subclasscheck__`
(string comparison of `str(sup)` against the `str` of every class in
`sub.mro()`, which makes any two same-named flatty container classes
subclasses of each other). -/
def issub (sub sup : PTy) : Bool :=
  (strRepr sub == strRepr sup)
  || (match sub, sup with
      | .schemaT _ _, .schemaBase => true
      | .typedListT _, .listT => true
      | .typedDictT _, .dictT => true
      | .boolT, .intT => true
      | _, _ => false)

/-- Model of `type(v)` for a runtime value. -/
def runtimeType : PVal → PTy
  | .none => .noneClass
  | .int _ => .intT
  | .str _ => .strT
  | .bool _ => .boolT
  | .date _ _ _ => .dateT
  | .datetime _ _ _ _ _ _ _ => .datetimeT
  | .time _ _ _ _ => .timeT
  | .list _ => .listT
  | .dict _ => .dictT
  | .inst c _ => c
  | .typeMarker _ => .typeClass

/-- Model of `isinstance(v, cls)` (via `issubclass(type(v), cls)`, which is also how
the overridden `__instancecheck__` behaves). -/
def isInst (v : PVal) (cls : PTy) : Bool :=
  issub (runtimeType v) cls

mutual
/-- The runtime value of a declared-type slot when it is read back through
`getattr` class-attribute fallback: classes appear as class objects,
templates appear as the list/dict of class objects they are, `None`
appears as `None`. -/
def tyToVal : PTy → PVal
  | .noneT => .none
  | .listTemplate ts => .list (tyToValList ts)
  | .dictTemplate es => .dict (tyToValAssoc es)
  | t => .typeMarker t

def tyToValList : List PTy → List PVal
  | [] => []
  | t :: ts => tyToVal t :: tyToValList ts

def tyToValAssoc : List (String × PTy) → List (String × PVal)
  | [] => []
  | (k, t) :: es => (k, tyToVal t) :: tyToValAssoc es
end

/-- Association-list lookup (Python `d[k]` / `k in d`). -/
def alookup {α : Type} (l : List (String × α)) (k : String) : Option α :=
  match l with
  | [] => Option.none
  | (k', v) :: rest => if k' == k then some v else alookup rest k

/-- Association-list update: overwrite the first binding of `k`, or append
(Python `d[k] = v` semantics for insertion order). -/
def aset {α : Type} (l : List (String × α)) (k : String) (v : α) :
    List (String × α) :=
  match l with
  | [] => [(k, v)]
  | (k', v') :: rest =>
      if k' == k then (k, v) :: rest else (k', v') :: aset rest k v

/-! ### Temporal rendering and parsing (`isoformat`, `strftime`, `strptime`) -/

/-- Zero-pad a natural number to width `w` (as `%0wd`). -/
def pad (w : Nat) (n : Nat) : String :=
  let s := toString n
  (List.replicate (w - s.length) '0').asString ++ s

/-- Model of `date.isoformat()`: `YYYY-MM-DD`. -/
def isoDate (y m d : Nat) : String :=
  pad 4 y ++ "-" ++ pad 2 m ++ "-" ++ pad 2 d

/-- Model of `datetime.isoformat()`: `YYYY-MM-DDTHH:MM:SS[.ffffff]` — the
microsecond part is omitted when the microsecond is 0. -/
def isoDateTime (y mo d h mi s us : Nat) : String :=
  isoDate y mo d ++ "T" ++ pad 2 h ++ ":" ++ pad 2 mi ++ ":" ++ pad 2 s ++
    (if us == 0 then ("") else (".") ++ pad 6 us)

/-- Model of `time.strftime("%H:%M:%S.%f")` (also what `datetime.strftime` yields for
that pattern): the microsecond part is always present. -/
def strftimeHMSf (h mi s us : Nat) : String :=
  pad 2 h ++ ":" ++ pad 2 mi ++ ":" ++ pad 2 s ++ "." ++ pad 6 us

/-- Split a character list on a separator character (`str.split(sep)`). -/
def splitChar (c : Char) : List Char → List (List Char)
  | [] => [[]]
  | x :: xs =>
    let r := splitChar c xs
    if x == c then [] :: r
    else match r with
      | [] => [[x]]
      | g :: gs => (x :: g) :: gs

def digitsToNat : List Char → Nat → Nat
  | [], acc => acc
  | c :: cs, acc => digitsToNat cs (acc * 10 + (c.toNat - 48))

/-- A `strptime` numeric field: 1 to `w` digits. -/
def parseNumField (s : List Char) (w : Nat) : Option Nat :=
  if s.length < 1 || s.length > w || !s.all Char.isDigit then Option.none
  else some (digitsToNat s 0)

/-- Gregorian leap years, as `datetime` uses. -/
def isLeap (y : Nat) : Bool :=
  y % 4 == 0 && (y % 100 != 0 || y % 400 == 0)

def daysInMonth (y m : Nat) : Nat :=
  if m == 2 then (if isLeap y then 29 else 28)
  else if m == 4 || m == 6 || m == 9 || m == 11 then 30
  else 31

/-- Model of `datetime.strptime(s, "%Y-%m-%d")`, reduced to its date components;
failure is the `ValueError` (`FormatError`). -/
def parseDate (s : String) : Except PErr (Nat × Nat × Nat) :=
  match splitChar '-' s.data with
  | [ys, ms, ds] =>
    match parseNumField ys 4, parseNumField ms 2, parseNumField ds 2 with
    | some y, some mo, some d =>
        if 1 ≤ y && y ≤ 9999 && 1 ≤ mo && mo ≤ 12 && 1 ≤ d &&
            d ≤ daysInMonth y mo then
          .ok (y, mo, d)
        else .error .formatError
    | _, _, _ => .error .formatError
  | _ => .error .formatError

/-- The `"%H:%M:%S.%f"` part of a `strptime` pattern: the dot and a 1-6
digit fraction (right-padded with zeros to microseconds) are mandatory. -/
def parseHMSf (s : String) : Except PErr (Nat × Nat × Nat × Nat) :=
  match splitChar ':' s.data with
  | [hs, ms, rest] =>
    match splitChar '.' rest with
    | [ss, fs] =>
      match parseNumField hs 2, parseNumField ms 2, parseNumField ss 2,
          parseNumField fs 6 with
      | some h, some mi, some sec, some f =>
          if h ≤ 23 && mi ≤ 59 && sec ≤ 59 then
            .ok (h, mi, sec, f * 10 ^ (6 - fs.length))
          else .error .formatError
      | _, _, _, _ => .error .formatError
    | _ => .error .formatError
  | _ => .error .formatError

/-- Model of `datetime.strptime(s, "%Y-%m-%dT%H:%M:%S.%f")`. -/
def parseDateTime (s : String) :
    Except PErr (Nat × Nat × Nat × Nat × Nat × Nat × Nat) :=
  match splitChar 'T' s.data with
  | [ds, ts] =>
    match parseDate (String.mk ds) with
    | .error e => .error e
    | .ok (y, mo, d) =>
      match parseHMSf (String.mk ts) with
      | .error e => .error e
      | .ok (h, mi, sec, us) => .ok (y, mo, d, h, mi, sec, us)
  | _ => .error .formatError

/-- Model of `str(v)` for the values that can reach `strptime` in this model. -/
def pyStr : PVal → String
  | .str s => s
  | .int n => toString n
  | .bool b => if b then ("True") else ("False")
  | .date y m d => isoDate y m d
  | .datetime y mo d h mi s us => isoDateTime y mo d h mi s us
  | _ => "<unparsable object>"

/-! ### The converter registry (`ConvertManager._convert_dict`) -/

/-- The built-in converter classes. -/
inductive ConvName where
  | dateC | datetimeC | timeC | schemaC | typedListC | typedDictC
  deriving DecidableEq, Repr

structure RegEntry where
  key : PTy
  conv : ConvName
  exact : Bool

abbrev Registry := List RegEntry

/-- The default `_convert_dict`, in source order. -/
def defaultRegistry : Registry :=
  [⟨.dateT, .dateC, true⟩,
   ⟨.datetimeT, .datetimeC, true⟩,
   ⟨.timeT, .timeC, true⟩,
   ⟨.schemaBase, .schemaC, false⟩,
   ⟨.typedDictT Option.none, .typedDictC, true⟩,
   ⟨.dictT, .typedDictC, true⟩,
   ⟨.typedListT Option.none, .typedListC, true⟩,
   ⟨.listT, .typedListC, true⟩]

/-- First scan of `ConvertManager.to_flat`/`to_obj`/`check_type`: an entry
whose key has the same `str` as the candidate class (`str(obj_type_class)
== str(type)`), regardless of its `exact` flag. -/
def findExact (reg : Registry) (cls : PTy) : Option RegEntry :=
  reg.find? (fun e => strRepr e.key == strRepr cls)

/-- Second scan: the first `exact=False` entry whose key is a superclass of
the candidate class. -/
def findSub (reg : Registry) (cls : PTy) : Option RegEntry :=
  reg.find? (fun e => !e.exact && issub cls e.key)

/-- Converter resolution: exact (string-equality) scan first, then the
subtype scan; `none` means identity pass-through. -/
def resolveConv (reg : Registry) (cls : PTy) : Option RegEntry :=
  match findExact reg cls with
  | some e => some e
  | Option.none => findSub reg cls

/-- Dict-style lookup of the registry by key object (Python hashes class
objects by identity, modelled as structural equality). -/
def lookupReg (reg : Registry) (t : PTy) : Option (ConvName × Bool) :=
  match reg with
  | [] => Option.none
  | e :: rest =>
      if PTy.beq e.key t then some (e.conv, e.exact) else lookupReg rest t

/-- Model of `cls._convert_dict[conv_type] = {...}`: overwrite in place or append. -/
def updateReg (reg : Registry) (t : PTy) (c : ConvName) (ex : Bool) :
    Registry :=
  match reg with
  | [] => [⟨t, c, ex⟩]
  | e :: rest =>
      if PTy.beq e.key t then ⟨t, c, ex⟩ :: rest
      else e :: updateReg rest t c ex

/-- A candidate `converter` argument for `set_converter` as a raw Python
object: whether it is a class, whether it is a `Converter` subclass, and
(when it is one of the modelled converters) which one. -/
structure ConvCand where
  isClass : Bool
  isConverterSub : Bool
  name : ConvName

/-- Model of `ConvertManager.set_converter(conv_type, converter, exact)`, in
state-passing style: the returned registry is the table after the call
(unchanged when `TypeError` is raised). -/
def setConverter (reg : Registry) (convType : PTy) (cand : ConvCand)
    (exact : Bool) : Except PErr Unit × Registry :=
  if cand.isClass && cand.isConverterSub then
    (.ok (), updateReg reg convType cand.name exact)
  else
    (.error .typeError, reg)

/-- Model of `ConvertManager.del_converter(conv_type)`. -/
def delConverter (reg : Registry) (convType : PTy) : Registry :=
  reg.filter (fun e => !PTy.beq e.key convType)

/-! ### Type checking (`_check_type`, converter `check_type`,
`ConvertManager.check_type`) -/

/-- Module-level `_check_type(val, type)`. -/
def _check_type (val : PVal) (ty : PTy) : Except PErr Unit :=
  match ty with
  | .noneT => .ok ()
  | .noneClass => .ok ()
  | _ =>
    match val with
    | .none => .ok ()
    | v =>
      let ty' := if isclass ty then ty else dispatchClass ty
      if isInst v ty' then .ok () else .error .typeError

/-- The `check_type` classmethod of each built-in converter.  The temporal
converters inherit the base `Converter.check_type`, which does nothing. -/
def convCheckType (c : ConvName) (attrType : PTy) (attrValue : PVal) :
    Except PErr Unit :=
  match c with
  | .dateC => .ok ()
  | .datetimeC => .ok ()
  | .timeC => .ok ()
  | .schemaC =>
    let at' := if isclass attrType then attrType else dispatchClass attrType
    if issub (runtimeType attrValue) at' then .ok () else .error .typeError
  | .typedListC =>
    let at' := if isclass attrType then attrType else dispatchClass attrType
    if issub (runtimeType attrValue) at' ||
        issub (runtimeType attrValue) .listT ||
        (match attrValue with | .none => true | _ => false) then .ok ()
    else .error .typeError
  | .typedDictC =>
    let at' := if isclass attrType then attrType else dispatchClass attrType
    if issub (runtimeType attrValue) at' ||
        issub (runtimeType attrValue) .dictT ||
        (match attrValue with | .none => true | _ => false) then .ok ()
    else .error .typeError

/-- Model of `ConvertManager.check_type(attr_type, attr_value)`: resolve a converter
for the (truthy) declared type's class and delegate, else fall back to
`_check_type`. -/
def cmCheckType (reg : Registry) (attrType : PTy) (attrValue : PVal) :
    Except PErr Unit :=
  if pyTruthy attrType then
    match resolveConv reg (dispatchClass attrType) with
    | some e => convCheckType e.conv attrType attrValue
    | Option.none => _check_type attrValue (dispatchClass attrType)
  else _check_type attrValue attrType

/-! ### Attribute access on instances -/

/-- Model of `hasattr(obj, n)`: instance dict, then the object's own class. -/
def hasattrV : PVal → String → Bool
  | .inst cls a, n =>
      (alookup a n).isSome ||
      (match cls with
       | .schemaT _ ca => (alookup ca n).isSome
       | _ => false)
  | _, _ => false

/-- Model of `getattr(obj, n)` (guarded by `hasattrV`): instance dict first, then
class-attribute fallback, where a declared type slot reads back as the
corresponding runtime object (`tyToVal`). -/
def getattrV : PVal → String → PVal
  | .inst cls a, n =>
      match alookup a n with
      | some v => v
      | Option.none =>
        match cls with
        | .schemaT _ ca =>
          match alookup ca n with
          | some t => tyToVal t
          | Option.none => .none
        | _ => .none
  | _, _ => .none

/-- Model of `setattr(obj, n, v)`; on a non-instance this is an `AttributeError`. -/
def setattrV : PVal → String → PVal → Except PErr PVal
  | .inst c a, n, v => .ok (.inst c (aset a n v))
  | _, _, _ => .error .attributeError

/-- Model of `cls_obj[k] = v`; a `TypeError` on anything that is not a dict. -/
def setitemV : PVal → String → PVal → Except PErr PVal
  | .dict m, k, v => .ok (.dict (aset m k v))
  | _, _, _ => .error .typeError

/-- The `attr_value == attr_type and inspect.isclass(attr_value)` test in
`SchemaConverter.to_flat` (an unassigned attribute read back as its own
type marker). -/
def isMarkerOfType (v : PVal) (t : PTy) : Bool :=
  match v with
  | .typeMarker c => pyClassEq c t
  | _ => false

/-- The declared attributes of a record class (`dir(obj_type)` restricted
to the schema-declared data attributes). -/
def schemaAttrs : PTy → List (String × PTy)
  | .schemaT _ a => a
  | _ => []

/-- Model of `obj_type()` / `type(obj_type)()` when constructing a fresh target. -/
def newInstance (objType : PTy) : Except PErr PVal :=
  if isclass objType then
    match objType with
    | .schemaT _ _ => .ok (.inst objType [])
    | .schemaBase => .ok (.inst .schemaBase [])
    | .typedListT _ => .ok (.list [])
    | .typedDictT _ => .ok (.dict [])
    | .listT => .ok (.list [])
    | .dictT => .ok (.dict [])
    | .intT => .ok (.int 0)
    | .strT => .ok (.str (""))
    | .boolT => .ok (.bool false)
    | _ => .error .otherError
  else
    match objType with
    | .listTemplate _ => .ok (.list [])
    | .dictTemplate _ => .ok (.dict [])
    | _ => .error .otherError

/-! ### Container element-type resolution (`get_sub_type`) -/

/-- Model of `hasattr(obj_type, 'ftype')`: true exactly for the flatty container
classes (the base classes carry `ftype = None`). -/
def hasFtype : PTy → Bool
  | .typedListT _ => true
  | .typedDictT _ => true
  | _ => false

/-- The `ftype` class attribute (`None` reads back as the untyped slot). -/
def ftypeVal : PTy → PTy
  | .typedListT (some t) => t
  | .typedDictT (some t) => t
  | _ => .noneT

/-- The error raised by the `to_obj` `get_sub_type` helpers: building the
message concatenates a string literal with the element, so for non-string
elements the `Exception` is pre-empted by a `TypeError` from `str + v`. -/
def cantGuessErr : PVal → PErr
  | .str _ => .cantGuess
  | _ => .typeError

/-- Model of `get_sub_type(idx)` in `TypedListConverter.to_flat` — the call sites
always pass `idx = 0`. -/
def getSubTypeFlatList (objType : PTy) : PTy :=
  if hasFtype objType then ftypeVal objType
  else match objType with
    | .listTemplate (t :: _) => t
    | _ => .noneT

/-- Model of `get_sub_type(idx, v)` in `TypedListConverter.to_obj` — the call sites
always pass `idx = 0`; an unresolvable element type raises. -/
def getSubTypeObjList (objType : PTy) (item : PVal) : Except PErr PTy :=
  if hasFtype objType then .ok (ftypeVal objType)
  else match objType with
    | .listTemplate (t :: _) => .ok t
    | _ => .error (cantGuessErr item)

/-- Model of `get_sub_type(elem)` in `TypedDictConverter.to_flat`. -/
def getSubTypeFlatDict (objType : PTy) (k : String) : PTy :=
  if hasFtype objType then ftypeVal objType
  else match objType with
    | .dictTemplate es =>
      match alookup es k with
      | some t => t
      | Option.none => .noneT
    | _ => .noneT

/-- Model of `get_sub_type(elem, v)` in `TypedDictConverter.to_obj`. -/
def getSubTypeObjDict (objType : PTy) (k : String) (v : PVal) :
    Except PErr PTy :=
  if hasFtype objType then .ok (ftypeVal objType)
  else match objType with
    | .dictTemplate es =>
      match alookup es k with
      | some t => .ok t
      | Option.none => .error (cantGuessErr v)
    | _ => .error (cantGuessErr v)

/-! ### The temporal converters (`DateConverter`, `DateTimeConverter`,
`TimeConverter`) — non-recursive. -/

/-- Model of `time.isoformat()`: microsecond part omitted when 0. -/
def isoTime (h mi s us : Nat) : String :=
  pad 2 h ++ ":" ++ pad 2 mi ++ ":" ++ pad 2 s ++
    (if us == 0 then ("") else (".") ++ pad 6 us)

/-- Model of `obj.isoformat()` on whatever value reached a date/datetime converter;
anything without an `isoformat` method is an `AttributeError`. -/
def pyIsoformat : PVal → Except PErr PVal
  | .none => .ok .none
  | .date y m d => .ok (.str (isoDate y m d))
  | .datetime y mo d h mi s us => .ok (.str (isoDateTime y mo d h mi s us))
  | .time h mi s us => .ok (.str (isoTime h mi s us))
  | _ => .error .attributeError

/-- Model of `DateConverter.to_flat` (null → null, else `obj.isoformat()`). -/
def dateConvToFlat (obj : PVal) : Except PErr PVal :=
  match obj with
  | .none => .ok .none
  | o => pyIsoformat o

/-- Model of `DateTimeConverter.to_flat` — same body as `DateConverter.to_flat`. -/
def datetimeConvToFlat (obj : PVal) : Except PErr PVal :=
  match obj with
  | .none => .ok .none
  | o => pyIsoformat o

/-- Model of `TimeConverter.to_flat`: `obj.strftime("%H:%M:%S.%f")`. -/
def timeConvToFlat (obj : PVal) : Except PErr PVal :=
  match obj with
  | .none => .ok .none
  | .time h mi s us => .ok (.str (strftimeHMSf h mi s us))
  | .datetime _ _ _ h mi s us => .ok (.str (strftimeHMSf h mi s us))
  | .date _ _ _ => .error .otherError
  | _ => .error .attributeError

/-- Model of `DateConverter.to_obj`.  With an existing instance the code computes
`d = strptime(...)` and then calls `obj.replace(d.year, d.month, d.day)`
*discarding the result* (dates are immutable), so the existing value is
returned unchanged.  On a class marker (the unassigned-attribute fallback)
`replace` is an unbound method and raises `TypeError`. -/
def dateConvToObj (val obj : PVal) : Except PErr PVal :=
  match val with
  | .none => .ok .none
  | v =>
    match parseDate (pyStr v) with
    | .error e => .error e
    | .ok (y, mo, d) =>
      match obj with
      | .none => .ok (.date y mo d)
      | .date y0 m0 d0 => .ok (.date y0 m0 d0)
      | .datetime y0 mo0 d0 h0 mi0 s0 us0 =>
          .ok (.datetime y0 mo0 d0 h0 mi0 s0 us0)
      | .typeMarker _ => .error .typeError
      | .str _ => .error .typeError
      | _ => .error .attributeError

/-- Model of `DateTimeConverter.to_obj` (same discarded-`replace` behaviour). -/
def datetimeConvToObj (val obj : PVal) : Except PErr PVal :=
  match val with
  | .none => .ok .none
  | v =>
    match parseDateTime (pyStr v) with
    | .error e => .error e
    | .ok (y, mo, d, h, mi, s, us) =>
      match obj with
      | .none => .ok (.datetime y mo d h mi s us)
      | .datetime y0 mo0 d0 h0 mi0 s0 us0 =>
          .ok (.datetime y0 mo0 d0 h0 mi0 s0 us0)
      | .date _ _ _ => .error .typeError
      | .time _ _ _ _ => .error .typeError
      | .typeMarker _ => .error .typeError
      | .str _ => .error .typeError
      | _ => .error .attributeError

/-- Model of `TimeConverter.to_obj` (same discarded-`replace` behaviour; on a
datetime target the positional `replace(hour, minute, second, µs, tzinfo)`
misaligns with `(year, month, ...)` and raises). -/
def timeConvToObj (val obj : PVal) : Except PErr PVal :=
  match val with
  | .none => .ok .none
  | v =>
    match parseHMSf (pyStr v) with
    | .error e => .error e
    | .ok (h, mi, s, us) =>
      match obj with
      | .none => .ok (.time h mi s us)
      | .time h0 mi0 s0 us0 => .ok (.time h0 mi0 s0 us0)
      | .datetime _ _ _ _ _ _ _ => .error .typeError
      | .date _ _ _ => .error .typeError
      | .typeMarker _ => .error .typeError
      | .str _ => .error .typeError
      | _ => .error .attributeError

/-! ### The recursive engine: `flatit` / `unflatit`, `ConvertManager.to_flat`
/ `to_obj`, and the record/container converters.

Every function consumes one unit of fuel per call; `fuelOut` is the model's
marker for fuel exhaustion (never produced by modelled Python behaviour). -/

mutual
/-- Module-level `flatit(obj, obj_type=None, val=None)`: with no declared
type, infer `type(obj)`, then dispatch through the registry. -/
def flatit (fuel : Nat) (reg : Registry) (obj : PVal) (objType : PTy)
    (val : PVal) : Except PErr PVal :=
  match fuel with
  | 0 => .error .fuelOut
  | f + 1 =>
    let ot := match objType with
      | .noneT => runtimeType obj
      | t => t
    cmToFlat f reg ot obj val

/-- Model of `ConvertManager.to_flat`: exact string-match scan, then subtype scan,
else return the object unchanged. -/
def cmToFlat (fuel : Nat) (reg : Registry) (objType : PTy) (obj : PVal)
    (val : PVal) : Except PErr PVal :=
  match fuel with
  | 0 => .error .fuelOut
  | f + 1 =>
    match resolveConv reg (dispatchClass objType) with
    | some e => convToFlat f reg e.conv objType obj val
    | Option.none => .ok obj

/-- Dispatch to the matched converter's `to_flat`. -/
def convToFlat (fuel : Nat) (reg : Registry) (c : ConvName) (objType : PTy)
    (obj : PVal) (val : PVal) : Except PErr PVal :=
  match fuel with
  | 0 => .error .fuelOut
  | f + 1 =>
    match c with
    | .dateC => dateConvToFlat obj
    | .datetimeC => datetimeConvToFlat obj
    | .timeC => timeConvToFlat obj
    | .schemaC => schemaToFlat f reg objType obj val
    | .typedListC => typedListToFlat f reg objType obj val
    | .typedDictC => typedDictToFlat f reg objType obj val

/-- Model of `SchemaConverter.to_flat`. -/
def schemaToFlat (fuel : Nat) (reg : Registry) (objType : PTy) (obj : PVal)
    (val : PVal) : Except PErr PVal :=
  match fuel with
  | 0 => .error .fuelOut
  | f + 1 =>
    match obj with
    | .none => .ok .none
    | o =>
      match (match val with
             | .none => Except.ok ([] : List (String × PVal))
             | .dict m => Except.ok m
             | _ => Except.error PErr.otherError) with
      | .error e => .error e
      | .ok flatDict =>
        match schemaFlatLoop f reg (schemaAttrs objType) o flatDict with
        | .error e => .error e
        | .ok m => .ok (.dict m)

/-- The `for attr_name in dir(obj_type)` loop of `SchemaConverter.to_flat`:
skip absent attributes, replace an unassigned type-marker value by `None`,
type-check, recursively flatten against any previously stored sub-tree, and
store. -/
def schemaFlatLoop (fuel : Nat) (reg : Registry)
    (attrs : List (String × PTy)) (obj : PVal)
    (flatDict : List (String × PVal)) :
    Except PErr (List (String × PVal)) :=
  match fuel with
  | 0 => .error .fuelOut
  | f + 1 =>
    match attrs with
    | [] => .ok flatDict
    | (n, aty) :: rest =>
      if hasattrV obj n then
        let av := getattrV obj n
        let av := if isMarkerOfType av aty then .none else av
        match cmCheckType reg aty av with
        | .error e => .error e
        | .ok _ =>
          let subVal := match alookup flatDict n with
            | some sv => sv
            | Option.none => .none
          match flatit f reg av aty subVal with
          | .error e => .error e
          | .ok fv => schemaFlatLoop f reg rest obj (aset flatDict n fv)
      else schemaFlatLoop f reg rest obj flatDict

/-- Model of `TypedListConverter.to_flat`. -/
def typedListToFlat (fuel : Nat) (reg : Registry) (objType : PTy)
    (obj : PVal) (val : PVal) : Except PErr PVal :=
  match fuel with
  | 0 => .error .fuelOut
  | f + 1 =>
    match obj with
    | .none => .ok .none
    | o =>
      match (match val with
             | .none => Except.ok ([] : List PVal)
             | .list xs => Except.ok xs
             | _ => Except.error PErr.attributeError) with
      | .error e => .error e
      | .ok flat0 =>
        match cmCheckType reg objType o with
        | .error e => .error e
        | .ok _ =>
          match o with
          | .list items =>
            match listFlatLoop f reg (getSubTypeFlatList objType) items
                flat0 with
            | .error e => .error e
            | .ok ys => .ok (.list ys)
          | _ => .error .otherError

/-- The element loop of `TypedListConverter.to_flat`: NB the source calls
`get_sub_type(0)` for every element. -/
def listFlatLoop (fuel : Nat) (reg : Registry) (subty : PTy)
    (items : List PVal) (acc : List PVal) : Except PErr (List PVal) :=
  match fuel with
  | 0 => .error .fuelOut
  | f + 1 =>
    match items with
    | [] => .ok acc
    | x :: rest =>
      match cmCheckType reg subty x with
      | .error e => .error e
      | .ok _ =>
        match flatit f reg x subty .none with
        | .error e => .error e
        | .ok fv => listFlatLoop f reg subty rest (acc ++ [fv])

/-- Model of `TypedDictConverter.to_flat`. -/
def typedDictToFlat (fuel : Nat) (reg : Registry) (objType : PTy)
    (obj : PVal) (val : PVal) : Except PErr PVal :=
  match fuel with
  | 0 => .error .fuelOut
  | f + 1 =>
    match obj with
    | .none => .ok .none
    | o =>
      match (match val with
             | .none => Except.ok ([] : List (String × PVal))
             | .dict m => Except.ok m
             | _ => Except.error PErr.otherError) with
      | .error e => .error e
      | .ok flat0 =>
        match cmCheckType reg objType o with
        | .error e => .error e
        | .ok _ =>
          match o with
          | .dict entries =>
            match dictFlatLoop f reg objType entries flat0 with
            | .error e => .error e
            | .ok m => .ok (.dict m)
          | _ => .error .otherError

/-- The `for k, v in obj.items()` loop of `TypedDictConverter.to_flat`
(this one does resolve the sub-type per key). -/
def dictFlatLoop (fuel : Nat) (reg : Registry) (objType : PTy)
    (entries : List (String × PVal)) (flatDict : List (String × PVal)) :
    Except PErr (List (String × PVal)) :=
  match fuel with
  | 0 => .error .fuelOut
  | f + 1 =>
    match entries with
    | [] => .ok flatDict
    | (k, v) :: rest =>
      let st := getSubTypeFlatDict objType k
      match cmCheckType reg st v with
      | .error e => .error e
      | .ok _ =>
        let subVal := match alookup flatDict k with
          | some sv => sv
          | Option.none => .none
        match flatit f reg v st subVal with
        | .error e => .error e
        | .ok fv => dictFlatLoop f reg objType rest (aset flatDict k fv)

/-- Module-level `unflatit(val, obj_type, obj=None)`. -/
def unflatit (fuel : Nat) (reg : Registry) (val : PVal) (objType : PTy)
    (obj : PVal) : Except PErr PVal :=
  match fuel with
  | 0 => .error .fuelOut
  | f + 1 => cmToObj f reg objType val obj

/-- Model of `ConvertManager.to_obj`: exact string-match scan, then subtype scan,
else return the primitive value unchanged. -/
def cmToObj (fuel : Nat) (reg : Registry) (objType : PTy) (val : PVal)
    (obj : PVal) : Except PErr PVal :=
  match fuel with
  | 0 => .error .fuelOut
  | f + 1 =>
    match resolveConv reg (dispatchClass objType) with
    | some e => convToObj f reg e.conv objType val obj
    | Option.none => .ok val

/-- Dispatch to the matched converter's `to_obj`. -/
def convToObj (fuel : Nat) (reg : Registry) (c : ConvName) (objType : PTy)
    (val : PVal) (obj : PVal) : Except PErr PVal :=
  match fuel with
  | 0 => .error .fuelOut
  | f + 1 =>
    match c with
    | .dateC => dateConvToObj val obj
    | .datetimeC => datetimeConvToObj val obj
    | .timeC => timeConvToObj val obj
    | .schemaC => schemaToObj f reg objType val obj
    | .typedListC => typedListToObj f reg objType val obj
    | .typedDictC => typedDictToObj f reg objType val obj

/-- Model of `SchemaConverter.to_obj`: construct or reuse the target instance, then
walk the declared attributes. -/
def schemaToObj (fuel : Nat) (reg : Registry) (objType : PTy) (val : PVal)
    (obj : PVal) : Except PErr PVal :=
  match fuel with
  | 0 => .error .fuelOut
  | f + 1 =>
    match val with
    | .none => .ok .none
    | v =>
      match (match obj with
             | .none => newInstance objType
             | o => Except.ok o) with
      | .error e => .error e
      | .ok clsObj =>
        match v with
        | .dict m => schemaObjLoop f reg (schemaAttrs objType) m clsObj
        | .list _ => .ok clsObj
        | .str _ => .ok clsObj
        | _ => .error .typeError

/-- The attribute loop of `SchemaConverter.to_obj`: only keys present in
the tree are touched; the merge target for each attribute is whatever
`getattr` currently yields on the instance (class-attribute fallback
included). -/
def schemaObjLoop (fuel : Nat) (reg : Registry)
    (attrs : List (String × PTy)) (m : List (String × PVal))
    (clsObj : PVal) : Except PErr PVal :=
  match fuel with
  | 0 => .error .fuelOut
  | f + 1 =>
    match attrs with
    | [] => .ok clsObj
    | (n, aty) :: rest =>
      match alookup m n with
      | Option.none => schemaObjLoop f reg rest m clsObj
      | some flatVal =>
        let subObj := if hasattrV clsObj n then getattrV clsObj n else .none
        match unflatit f reg flatVal aty subObj with
        | .error e => .error e
        | .ok conv =>
          match cmCheckType reg aty conv with
          | .error e => .error e
          | .ok _ =>
            match setattrV clsObj n conv with
            | .error e => .error e
            | .ok cls' => schemaObjLoop f reg rest m cls'

/-- Model of `TypedListConverter.to_obj`. -/
def typedListToObj (fuel : Nat) (reg : Registry) (objType : PTy)
    (val : PVal) (obj : PVal) : Except PErr PVal :=
  match fuel with
  | 0 => .error .fuelOut
  | f + 1 =>
    match val with
    | .none => .ok .none
    | v =>
      match (match obj with
             | .none => newInstance objType
             | o => Except.ok o) with
      | .error e => .error e
      | .ok clsObj =>
        match (match clsObj with
               | .list ys => Except.ok ys
               | .typeMarker _ => Except.error PErr.typeError
               | _ => Except.error PErr.attributeError) with
        | .error e => .error e
        | .ok acc0 =>
          match (match v with
                 | .list items => Except.ok items
                 | .dict entries =>
                     Except.ok (entries.map
                       (fun (kv : String × PVal) => PVal.str kv.1))
                 | _ => Except.error PErr.typeError) with
          | .error e => .error e
          | .ok items =>
            match listObjLoop f reg objType items acc0 with
            | .error e => .error e
            | .ok ys => .ok (.list ys)

/-- The element loop of `TypedListConverter.to_obj`: NB the source calls
`get_sub_type(0, item)` for every element, and the sub-type resolution
happens (and can raise) before the recursive `unflatit`. -/
def listObjLoop (fuel : Nat) (reg : Registry) (objType : PTy)
    (items : List PVal) (acc : List PVal) : Except PErr (List PVal) :=
  match fuel with
  | 0 => .error .fuelOut
  | f + 1 =>
    match items with
    | [] => .ok acc
    | x :: rest =>
      match getSubTypeObjList objType x with
      | .error e => .error e
      | .ok st =>
        match unflatit f reg x st .none with
        | .error e => .error e
        | .ok ret =>
          match cmCheckType reg st ret with
          | .error e => .error e
          | .ok _ => listObjLoop f reg objType rest (acc ++ [ret])

/-- Model of `TypedDictConverter.to_obj`. -/
def typedDictToObj (fuel : Nat) (reg : Registry) (objType : PTy)
    (val : PVal) (obj : PVal) : Except PErr PVal :=
  match fuel with
  | 0 => .error .fuelOut
  | f + 1 =>
    match val with
    | .none => .ok .none
    | v =>
      match (match obj with
             | .none => newInstance objType
             | o => Except.ok o) with
      | .error e => .error e
      | .ok clsObj =>
        match v with
        | .dict entries => dictObjLoop f reg objType entries clsObj
        | _ => .error .attributeError

/-- The `for k, v in val.items()` loop of `TypedDictConverter.to_obj`:
the per-key sub-type resolution can raise; `hasattr(cls_obj, k)` is an
attribute (not key) test on the target dict, hence the merge target is
`None` for ordinary keys. -/
def dictObjLoop (fuel : Nat) (reg : Registry) (objType : PTy)
    (entries : List (String × PVal)) (clsObj : PVal) :
    Except PErr PVal :=
  match fuel with
  | 0 => .error .fuelOut
  | f + 1 =>
    match entries with
    | [] => .ok clsObj
    | (k, v) :: rest =>
      match getSubTypeObjDict objType k v with
      | .error e => .error e
      | .ok st =>
        match unflatit f reg v st .none with
        | .error e => .error e
        | .ok ret =>
          match cmCheckType reg st ret with
          | .error e => .error e
          | .ok _ =>
            match setitemV clsObj k ret with
            | .error e => .error e
            | .ok cls' => dictObjLoop f reg objType rest cls'
end

/-! ### Common concrete fixtures -/

/-- The record type of spec Scenario 1: Point with x and y of type int. -/
def Point : PTy := .schemaT ("Point") [("x", .intT), ("y", .intT)]

/-- A record type with a single `datetime.date` attribute. -/
def DateRec : PTy := .schemaT ("DateRec") [("d", .dateT)]

/-! ### C1 — round-trip law -/

/-- C1: the round-trip law fails on the code for the built-in supported
attribute type `datetime.date`: flattening the record `DateRec(d =
date(2024, 3, 5))` yields `{'d': '2024-03-05'}`, but unflattening that tree
with declared type `DateRec` raises `TypeError` instead of returning an
equal instance — `SchemaConverter.to_obj` passes the class-attribute
fallback `datetime.date` (the type marker) as the existing sub-object, and
`DateConverter.to_obj` then calls `replace` on the class.  (Scalar-only
records such as `Point` do round-trip, first two conjuncts.) -/
theorem c1_roundtrip_fails_on_date_attribute :
    flatit 20 defaultRegistry
        (.inst Point [("x", .int 3), ("y", .int 4)]) Point .none =
      .ok (.dict [("x", .int 3), ("y", .int 4)]) ∧
    unflatit 20 defaultRegistry
        (.dict [("x", .int 3), ("y", .int 4)]) Point .none =
      .ok (.inst Point [("x", .int 3), ("y", .int 4)]) ∧
    flatit 20 defaultRegistry
        (.inst DateRec [("d", .date 2024 3 5)]) DateRec .none =
      .ok (.dict [("d", .str ("2024-03-05"))]) ∧
    unflatit 20 defaultRegistry
        (.dict [("d", .str ("2024-03-05"))]) DateRec .none =
      .error .typeError :=
  ⟨rfl, rfl, rfl, rfl⟩

/-! ### C6 — temporal merge-in-place -/

/-- C6: with a non-null textual value and a non-null existing instance, the
temporal converters return the existing instance with its *old* fields:
`obj.replace(...)` returns a fresh value (date/datetime/time are immutable)
and the code discards it.  The parse itself succeeds and yields different
components, as the final conjunct shows for the date case. -/
theorem c6_temporal_merge_discards_parsed_value :
    unflatit 20 defaultRegistry (.str ("2024-03-05")) .dateT
        (.date 2020 1 1) = .ok (.date 2020 1 1) ∧
    unflatit 20 defaultRegistry (.str ("2024-03-05T12:30:05.000007"))
        .datetimeT (.datetime 2020 1 1 0 0 0 0) =
      .ok (.datetime 2020 1 1 0 0 0 0) ∧
    unflatit 20 defaultRegistry (.str ("12:30:05.000123")) .timeT
        (.time 1 2 3 4) = .ok (.time 1 2 3 4) ∧
    parseDate ("2024-03-05") = .ok (2024, 3, 5) :=
  ⟨rfl, rfl, rfl, rfl⟩

/-! ### C7 — canonical temporal rendering -/

/-- C7: `datetime.isoformat()` omits the `.ffffff` part when the
microsecond is 0, so `DateTimeConverter.to_flat` renders
`datetime(2024, 3, 5, 12, 0, 0, 0)` as `"2024-03-05T12:00:00"` — not the
claimed canonical `YYYY-MM-DDTHH:MM:SS.ffffff` — and
`DateTimeConverter.to_obj`'s fixed `"%Y-%m-%dT%H:%M:%S.%f"` pattern then
rejects that very rendering.  With a non-zero microsecond the rendering is
canonical and parses (last two conjuncts). -/
theorem c7_datetime_rendering_violates_canonical_form :
    flatit 20 defaultRegistry (.datetime 2024 3 5 12 0 0 0)
        .datetimeT .none = .ok (.str ("2024-03-05T12:00:00")) ∧
    unflatit 20 defaultRegistry (.str ("2024-03-05T12:00:00"))
        .datetimeT .none = .error .formatError ∧
    flatit 20 defaultRegistry (.datetime 2024 3 5 12 0 0 500000)
        .datetimeT .none = .ok (.str ("2024-03-05T12:00:00.500000")) ∧
    unflatit 20 defaultRegistry (.str ("2024-03-05T12:00:00.500000"))
        .datetimeT .none = .ok (.datetime 2024 3 5 12 0 0 500000) :=
  ⟨rfl, rfl, rfl, rfl⟩

/-! ### C8 — heterogeneous-template element resolution -/

/-- C8: for a heterogeneous *sequence* template the code resolves every
element's type from template entry 0 (`get_sub_type(0)` at both call
sites), not from the element's own position: flattening `[1, "a"]` against
the template `[int, str]` raises `TypeError` (the claim's behaviour would
succeed), while `[1, 2]` succeeds (the claim's behaviour would reject the
`2` at the `str` position).  For a *mapping* template the entry at the
actual key is used, as the last conjunct shows. -/
theorem c8_list_template_always_uses_index_zero :
    flatit 20 defaultRegistry (.list [.int 1, .str ("a")])
        (.listTemplate [.intT, .strT]) .none = .error .typeError ∧
    flatit 20 defaultRegistry (.list [.int 1, .int 2])
        (.listTemplate [.intT, .strT]) .none =
      .ok (.list [.int 1, .int 2]) ∧
    flatit 20 defaultRegistry (.dict [("a", .int 1), ("b", .str ("x"))])
        (.dictTemplate [("a", .intT), ("b", .strT)]) .none =
      .ok (.dict [("a", .int 1), ("b", .str ("x"))]) :=
  ⟨rfl, rfl, rfl⟩

/-! ### C9 — structural equality of typed container types -/

/-- C9: any two `TypedList.set_type`/`TypedDict.set_type` instantiations
(including the bases) compare equal exactly when their `__name__`s match —
`MetaBaseFlattyType.__eq__` ignores the `ftype` parameter — even though
distinct instantiations are distinct type objects (fourth conjunct).
Consequently they share one `str` representation, registry lookup resolves
the same converter entry for every instantiation, and `issubclass` (hence
`isinstance`) succeeds across distinct instantiations. -/
theorem c9_typed_container_structural_equality (f f' : Option PTy) :
    pyClassEq (.typedListT f) (.typedListT f') = true ∧
    pyClassEq (.typedDictT f) (.typedDictT f') = true ∧
    pyClassEq (.typedListT f) (.typedDictT f') = false ∧
    PTy.typedListT (some .intT) ≠ PTy.typedListT (some .strT) ∧
    strRepr (.typedListT f) = strRepr (.typedListT f') ∧
    resolveConv defaultRegistry (.typedListT f) =
      some ⟨.typedListT Option.none, .typedListC, true⟩ ∧
    resolveConv defaultRegistry (.typedDictT f) =
      some ⟨.typedDictT Option.none, .typedDictC, true⟩ ∧
    issub (.typedListT f) (.typedListT f') = true :=
  ⟨rfl, rfl, rfl, by simp, rfl, rfl, rfl, rfl⟩

/-! ### Soundness of the structural class equality `PTy.beq` -/

set_option maxHeartbeats 2000000

/-- Soundness of `PTy.beqList`, given soundness on its elements. -/
theorem PTy.beqList_sound :
    ∀ (l₁ l₂ : List PTy),
      (∀ t ∈ l₁, ∀ b : PTy, PTy.beq t b = true → t = b) →
      PTy.beqList l₁ l₂ = true → l₁ = l₂
  | [], [], _, _ => rfl
  | [], _ :: _, _, h => by simp [PTy.beqList] at h
  | _ :: _, [], _, h => by simp [PTy.beqList] at h
  | t₁ :: l₁, t₂ :: l₂, ih, h => by
    simp only [PTy.beqList, Bool.and_eq_true] at h
    have h₁ : t₁ = t₂ := ih t₁ (by simp) t₂ h.1
    have h₂ : l₁ = l₂ :=
      PTy.beqList_sound l₁ l₂ (fun t ht b => ih t (by simp [ht]) b) h.2
    rw [h₁, h₂]

/-- Soundness of `PTy.beqAssoc`, given soundness on its value components. -/
theorem PTy.beqAssoc_sound :
    ∀ (l₁ l₂ : List (String × PTy)),
      (∀ p ∈ l₁, ∀ b : PTy, PTy.beq p.2 b = true → p.2 = b) →
      PTy.beqAssoc l₁ l₂ = true → l₁ = l₂
  | [], [], _, _ => rfl
  | [], _ :: _, _, h => by simp [PTy.beqAssoc] at h
  | _ :: _, [], _, h => by simp [PTy.beqAssoc] at h
  | (k₁, t₁) :: l₁, (k₂, t₂) :: l₂, ih, h => by
    simp only [PTy.beqAssoc, Bool.and_eq_true, beq_iff_eq] at h
    have h₁ : t₁ = t₂ := ih (k₁, t₁) (by simp) t₂ h.1.2
    have h₂ : l₁ = l₂ :=
      PTy.beqAssoc_sound l₁ l₂ (fun p hp b => ih p (by simp [hp]) b) h.2
    rw [h.1.1, h₁, h₂]

/-- Soundness of `PTy.beq`, by strong induction on size. -/
theorem PTy.eq_of_beq_sized :
    ∀ (n : Nat) (a b : PTy), sizeOf a ≤ n → PTy.beq a b = true → a = b := by
  intro n
  induction n with
  | zero =>
    intro a b hs _
    exact absurd hs (by cases a <;> simp)
  | succ n ihn =>
    intro a b hs h
    cases a <;> cases b
    all_goals try rfl
    all_goals try (exact absurd h Bool.false_ne_true)
    case schemaT.schemaT n₁ l₁ n₂ l₂ =>
      simp only [PTy.beq, Bool.and_eq_true, beq_iff_eq] at h
      have hl : l₁ = l₂ := by
        refine PTy.beqAssoc_sound l₁ l₂ (fun p hp b hb => ?_) h.2
        refine ihn p.2 b ?_ hb
        have h1 : sizeOf p < sizeOf l₁ := List.sizeOf_lt_of_mem hp
        have h2 : sizeOf p.2 < sizeOf p := by
          obtain ⟨x, y⟩ := p; simp; try omega
        simp at hs; omega
      rw [h.1, hl]
    case typedListT.typedListT o₁ o₂ =>
      cases o₁ <;> cases o₂
      all_goals try rfl
      all_goals try (exact absurd h Bool.false_ne_true)
      case some.some t₁ t₂ =>
        simp only [PTy.beq] at h
        have : t₁ = t₂ := by
          refine ihn t₁ t₂ ?_ h
          simp at hs; omega
        rw [this]
    case typedDictT.typedDictT o₁ o₂ =>
      cases o₁ <;> cases o₂
      all_goals try rfl
      all_goals try (exact absurd h Bool.false_ne_true)
      case some.some t₁ t₂ =>
        simp only [PTy.beq] at h
        have : t₁ = t₂ := by
          refine ihn t₁ t₂ ?_ h
          simp at hs; omega
        rw [this]
    case listTemplate.listTemplate l₁ l₂ =>
      simp only [PTy.beq] at h
      have hl : l₁ = l₂ := by
        refine PTy.beqList_sound l₁ l₂ (fun t ht b hb => ?_) h
        refine ihn t b ?_ hb
        have h1 : sizeOf t < sizeOf l₁ := List.sizeOf_lt_of_mem ht
        simp at hs; omega
      rw [hl]
    case dictTemplate.dictTemplate l₁ l₂ =>
      simp only [PTy.beq] at h
      have hl : l₁ = l₂ := by
        refine PTy.beqAssoc_sound l₁ l₂ (fun p hp b hb => ?_) h
        refine ihn p.2 b ?_ hb
        have h1 : sizeOf p < sizeOf l₁ := List.sizeOf_lt_of_mem hp
        have h2 : sizeOf p.2 < sizeOf p := by
          obtain ⟨x, y⟩ := p; simp; try omega
        simp at hs; omega
      rw [hl]

theorem PTy.eq_of_beq {a b : PTy} (h : PTy.beq a b = true) : a = b :=
  PTy.eq_of_beq_sized (sizeOf a) a b (Nat.le_refl _) h

mutual
/-- Reflexivity of the structural class equality `PTy.beq`. -/
theorem PTy.beq_refl : (t : PTy) → PTy.beq t t = true
  | .noneT => rfl
  | .noneClass => rfl
  | .intT => rfl
  | .strT => rfl
  | .boolT => rfl
  | .dateT => rfl
  | .datetimeT => rfl
  | .timeT => rfl
  | .schemaBase => rfl
  | .schemaT n a => by
      simp only [PTy.beq, Bool.and_eq_true, beq_self_eq_true, true_and]
      exact PTy.beqAssoc_refl a
  | .typedListT Option.none => rfl
  | .typedListT (some t) => PTy.beq_refl t
  | .typedDictT Option.none => rfl
  | .typedDictT (some t) => PTy.beq_refl t
  | .listT => rfl
  | .dictT => rfl
  | .typeClass => rfl
  | .listTemplate l => PTy.beqList_refl l
  | .dictTemplate a => PTy.beqAssoc_refl a

theorem PTy.beqList_refl : (l : List PTy) → PTy.beqList l l = true
  | [] => rfl
  | t :: l => by
      simp only [PTy.beqList, Bool.and_eq_true]
      exact ⟨PTy.beq_refl t, PTy.beqList_refl l⟩

theorem PTy.beqAssoc_refl :
    (l : List (String × PTy)) → PTy.beqAssoc l l = true
  | [] => rfl
  | (k, t) :: l => by
      simp only [PTy.beqAssoc, Bool.and_eq_true, beq_self_eq_true, true_and]
      exact ⟨PTy.beq_refl t, PTy.beqAssoc_refl l⟩
end

theorem PTy.beq_iff {a b : PTy} : PTy.beq a b = true ↔ a = b :=
  ⟨PTy.eq_of_beq, fun h => h ▸ PTy.beq_refl a⟩

theorem PTy.beq_eq_false_iff {a b : PTy} :
    PTy.beq a b = false ↔ a ≠ b := by
  rw [← Bool.not_eq_true, not_iff_not]
  exact PTy.beq_iff

/-! ### C10 — `set_converter` validation and atomicity -/

/-- Lookup after overwrite at the written key. -/
theorem lookupReg_updateReg_self (reg : Registry) (t : PTy) (c : ConvName)
    (ex : Bool) : lookupReg (updateReg reg t c ex) t = some (c, ex) := by
  induction reg with
  | nil => simp [updateReg, lookupReg, PTy.beq_refl]
  | cons e rest ih =>
    by_cases hb : PTy.beq e.key t = true
    · simp [updateReg, hb, lookupReg, PTy.beq_refl]
    · simp only [Bool.not_eq_true] at hb
      simp [updateReg, hb, lookupReg, ih]

/-- Lookup after overwrite at any other key. -/
theorem lookupReg_updateReg_other (reg : Registry) (t : PTy) (c : ConvName)
    (ex : Bool) (u : PTy) (hu : u ≠ t) :
    lookupReg (updateReg reg t c ex) u = lookupReg reg u := by
  induction reg with
  | nil =>
    have : PTy.beq t u = false := PTy.beq_eq_false_iff.mpr (fun h => hu h.symm)
    simp [updateReg, lookupReg, this]
  | cons e rest ih =>
    by_cases hb : PTy.beq e.key t = true
    · have hek : e.key = t := PTy.eq_of_beq hb
      have htu : PTy.beq t u = false :=
        PTy.beq_eq_false_iff.mpr (fun h => hu h.symm)
      simp [updateReg, hb, lookupReg, htu, hek, PTy.beq_refl]
    · simp only [Bool.not_eq_true] at hb
      simp [updateReg, hb, lookupReg, ih]

/-- C10: `ConvertManager.set_converter(conv_type, converter, exact)` with a
non-class `converter` or one that is not a `Converter` subclass raises
`TypeError` and leaves the registry table unchanged; with a valid converter
it succeeds and the entry for `conv_type` afterwards is exactly
`(converter, exact)`, overwriting any previous entry for that key and
leaving every other key's entry untouched. -/
theorem c10_set_converter_validation_and_atomicity (reg : Registry)
    (t : PTy) (cand : ConvCand) (ex : Bool) :
    (¬ (cand.isClass = true ∧ cand.isConverterSub = true) →
      setConverter reg t cand ex = (.error .typeError, reg)) ∧
    (cand.isClass = true ∧ cand.isConverterSub = true →
      ∃ reg', setConverter reg t cand ex = (.ok (), reg') ∧
        lookupReg reg' t = some (cand.name, ex) ∧
        ∀ u : PTy, u ≠ t → lookupReg reg' u = lookupReg reg u) := by
  constructor
  · intro h
    rcases Bool.eq_false_or_eq_true cand.isClass with h1 | h1
    · rcases Bool.eq_false_or_eq_true cand.isConverterSub with h2 | h2
      · exact absurd ⟨h1, h2⟩ h
      · simp [setConverter, h1, h2]
    · simp [setConverter, h1]
  · intro ⟨h1, h2⟩
    refine ⟨updateReg reg t cand.name ex, ?_, ?_, ?_⟩
    · simp [setConverter, h1, h2]
    · exact lookupReg_updateReg_self reg t cand.name ex
    · exact fun u hu => lookupReg_updateReg_other reg t cand.name ex u hu

/-- Witness for C10 at a concrete registry, key and converter. -/
theorem c10_set_converter_witness :
    (setConverter defaultRegistry .intT ⟨false, true, .dateC⟩ true =
      (.error .typeError, defaultRegistry)) ∧
    (∃ reg', setConverter defaultRegistry .intT ⟨true, true, .dateC⟩ true =
      (.ok (), reg') ∧ lookupReg reg' .intT = some (.dateC, true) ∧
      lookupReg reg' .dateT = lookupReg defaultRegistry .dateT) := by
  constructor
  · exact (c10_set_converter_validation_and_atomicity defaultRegistry .intT
      ⟨false, true, .dateC⟩ true).1 (by simp)
  · obtain ⟨reg', hset, hself, hother⟩ :=
      (c10_set_converter_validation_and_atomicity defaultRegistry .intT
        ⟨true, true, .dateC⟩ true).2 ⟨rfl, rfl⟩
    exact ⟨reg', hset, hself, hother .dateT (by simp)⟩

/-! ### C3 — registry dispatch order and identity fallback -/

/-- C3: converter resolution (shared by `ConvertManager.to_flat`/`to_obj`)
first scans *all* registry entries for a string-representation (structural)
match against the candidate's class; only when no such match exists does it
scan the `exact=False` entries for the first whose key is a superclass of
the candidate; and when nothing matches, `to_flat` returns the object
unchanged and `to_obj` returns the primitive value unchanged. -/
theorem c3_dispatch_order_and_fallback (reg : Registry) (t : PTy)
    (obj val : PVal) (f : Nat) :
    ((∃ e ∈ reg, strRepr e.key = strRepr (dispatchClass t)) →
      ∃ e, resolveConv reg (dispatchClass t) = some e ∧ e ∈ reg ∧
        strRepr e.key = strRepr (dispatchClass t)) ∧
    ((∀ e ∈ reg, strRepr e.key ≠ strRepr (dispatchClass t)) →
      resolveConv reg (dispatchClass t) =
        reg.find? (fun e => !e.exact && issub (dispatchClass t) e.key)) ∧
    (∀ e, resolveConv reg (dispatchClass t) = some e → e ∈ reg ∧
      (strRepr e.key = strRepr (dispatchClass t) ∨
        (e.exact = false ∧ issub (dispatchClass t) e.key = true))) ∧
    (resolveConv reg (dispatchClass t) = Option.none →
      cmToFlat (f + 1) reg t obj val = .ok obj ∧
      cmToObj (f + 1) reg t val obj = .ok val) := by
  refine ⟨?_, ?_, ?_, ?_⟩
  · rintro ⟨e, hmem, hstr⟩
    have hsome : (findExact reg (dispatchClass t)).isSome := by
      rw [findExact, List.find?_isSome]
      exact ⟨e, hmem, by simp [hstr]⟩
    obtain ⟨e', he'⟩ := Option.isSome_iff_exists.mp hsome
    refine ⟨e', by simp [resolveConv, he'], List.mem_of_find?_eq_some he', ?_⟩
    have := List.find?_some he'
    simpa using this
  · intro hnone
    have : findExact reg (dispatchClass t) = Option.none := by
      rw [findExact, List.find?_eq_none]
      intro e he
      simp [hnone e he]
    simp [resolveConv, this, findSub]
  · intro e he
    rw [resolveConv] at he
    cases hfe : findExact reg (dispatchClass t) with
    | some e' =>
      rw [hfe] at he
      cases he
      refine ⟨List.mem_of_find?_eq_some hfe, Or.inl ?_⟩
      have := List.find?_some hfe
      simpa using this
    | none =>
      rw [hfe] at he
      refine ⟨List.mem_of_find?_eq_some he, Or.inr ?_⟩
      have := List.find?_some he
      simp only [Bool.and_eq_true, Bool.not_eq_true'] at this
      exact this
  · intro h
    constructor
    · show (match resolveConv reg (dispatchClass t) with
        | some e => convToFlat f reg e.conv t obj val
        | Option.none => Except.ok obj) = Except.ok obj
      rw [h]
    · show (match resolveConv reg (dispatchClass t) with
        | some e => convToObj f reg e.conv t val obj
        | Option.none => Except.ok val) = Except.ok val
      rw [h]

/-- Witness for C3: the date converter is resolved by exact match for
`datetime.date`, and `int` (no matching entry) is passed through unchanged
by both directions. -/
theorem c3_dispatch_witness :
    (∃ e, resolveConv defaultRegistry (dispatchClass .dateT) = some e ∧
      e ∈ defaultRegistry ∧
      strRepr e.key = strRepr (dispatchClass .dateT)) ∧
    cmToFlat 7 defaultRegistry .intT (.int 5) .none = .ok (.int 5) ∧
    cmToObj 7 defaultRegistry .intT (.int 5) .none = .ok (.int 5) := by
  refine ⟨?_, ?_⟩
  · exact (c3_dispatch_order_and_fallback defaultRegistry .dateT .none .none
      0).1 ⟨⟨.dateT, .dateC, true⟩, by simp [defaultRegistry], rfl⟩
  · exact (c3_dispatch_order_and_fallback defaultRegistry .intT (.int 5)
      (.int 5) 6).2.2.2 (by rfl)

/-! ### C4 — container element-type law -/

/-- One step of the element loop of `TypedListConverter.to_flat`. -/
theorem listFlatLoop_cons (g : Nat) (reg : Registry) (subty : PTy)
    (x : PVal) (rest : List PVal) (acc : List PVal) :
    listFlatLoop (g + 1) reg subty (x :: rest) acc =
      (match cmCheckType reg subty x with
       | .error e => .error e
       | .ok _ =>
         match flatit g reg x subty .none with
         | .error e => .error e
         | .ok fv => listFlatLoop g reg subty rest (acc ++ [fv])) := rfl

/-- C5 counterexample: with a plain `list` declared type, flattening does
*not* pass elements through unchanged: each element is flattened as untyped
(`flatit(item, None)`), which infers the element's runtime type, so a
`datetime.date` element is rendered to its ISO string. -/
theorem c5_counterexample_untyped_flatten_converts :
    flatit 20 defaultRegistry (.list [.date 2024 3 5]) .listT .none =
      .ok (.list [.str ("2024-03-05")]) ∧
    PVal.list [.str ("2024-03-05")] ≠ PVal.list [.date 2024 3 5] :=
  ⟨rfl, by simp⟩

/-- Success of the `TypedListConverter.to_flat` element loop with an
unresolvable (hence `None`) element type is exactly element-wise untyped
flattening. -/
theorem listFlatLoop_untyped :
    ∀ (items : List PVal) (g : Nat) (acc ys : List PVal),
      listFlatLoop g defaultRegistry .noneT items acc = .ok ys →
      ∃ zs, ys = acc ++ zs ∧
        List.Forall₂
          (fun x y => ∃ g', flatit g' defaultRegistry x .noneT .none = .ok y)
          items zs := by
  intro items
  induction items with
  | nil =>
    intro g acc ys h
    cases g with
    | zero =>
      rw [show listFlatLoop 0 defaultRegistry .noneT [] acc =
        .error .fuelOut from rfl] at h
      exact Except.noConfusion h
    | succ g =>
      rw [show listFlatLoop (g + 1) defaultRegistry .noneT [] acc =
        .ok acc from rfl] at h
      cases h
      exact ⟨[], by simp, List.Forall₂.nil⟩
  | cons x rest ih =>
    intro g acc ys h
    cases g with
    | zero =>
      rw [show listFlatLoop 0 defaultRegistry .noneT (x :: rest) acc =
        .error .fuelOut from rfl] at h
      exact Except.noConfusion h
    | succ g =>
      have hck : cmCheckType defaultRegistry .noneT x = .ok () := rfl
      cases hfl : flatit g defaultRegistry x .noneT .none with
      | error e =>
        rw [listFlatLoop_cons, hck, hfl] at h
        exact Except.noConfusion h
      | ok fv =>
        have h' : listFlatLoop g defaultRegistry .noneT rest (acc ++ [fv]) =
            .ok ys := by
          rw [listFlatLoop_cons, hck, hfl] at h
          exact h
        obtain ⟨zs, hys, hfa⟩ := ih g (acc ++ [fv]) ys h'
        exact ⟨fv :: zs, by simp [hys], List.Forall₂.cons ⟨g, hfl⟩ hfa⟩

theorem alookup_aset_self {α : Type} (l : List (String × α)) (k : String)
    (v : α) : alookup (aset l k v) k = some v := by
  induction l with
  | nil => simp [aset, alookup]
  | cons p rest ih =>
    obtain ⟨k', v'⟩ := p
    by_cases hk : k' = k
    · simp [aset, alookup, hk]
    · simp only [aset, beq_iff_eq, if_neg hk]
      simp [alookup, hk, ih]

theorem alookup_aset_other {α : Type} (l : List (String × α))
    (k s : String) (v : α) (hs : s ≠ k) :
    alookup (aset l k v) s = alookup l s := by
  have hks : ¬ k = s := fun h => hs h.symm
  induction l with
  | nil => simp [aset, alookup, hks]
  | cons p rest ih =>
    obtain ⟨k', v'⟩ := p
    by_cases hk : k' = k
    · subst hk
      simp [aset, alookup, hks]
    · simp only [aset, beq_iff_eq, if_neg hk]
      by_cases hk's : k' = s
      · simp [alookup, hk's]
      · simp [alookup, hk's, ih]

/-- Setting a key that is absent from an association list appends it. -/
theorem aset_append_of_alookup_none {α : Type} (l : List (String × α))
    (k : String) (v : α) (h : alookup l k = Option.none) :
    aset l k v = l ++ [(k, v)] := by
  induction l with
  | nil => rfl
  | cons p rest ih =>
    obtain ⟨k', v'⟩ := p
    by_cases hk : k' = k
    · subst hk
      simp [alookup] at h
    · have h' : alookup rest k = Option.none := by
        simp [alookup, hk] at h
        exact h
      simp [aset, hk, ih h']

/-- One step of the key loop of `TypedDictConverter.to_flat`. -/
theorem dictFlatLoop_cons (g : Nat) (reg : Registry) (objType : PTy)
    (k : String) (v : PVal) (rest : List (String × PVal))
    (flatDict : List (String × PVal)) :
    dictFlatLoop (g + 1) reg objType ((k, v) :: rest) flatDict =
      (match cmCheckType reg (getSubTypeFlatDict objType k) v with
       | .error e => .error e
       | .ok _ =>
         match flatit g reg v (getSubTypeFlatDict objType k)
             (match alookup flatDict k with
              | some sv => sv
              | Option.none => PVal.none) with
         | .error e => .error e
         | .ok fv => dictFlatLoop g reg objType rest (aset flatDict k fv))
    := rfl

/-- Success of the `TypedDictConverter.to_flat` key loop with an
unresolvable (hence `None`) element type is exactly key-preserving,
value-wise untyped flattening. -/
theorem dictFlatLoop_untyped :
    ∀ (entries : List (String × PVal)) (g : Nat)
      (acc ys : List (String × PVal)),
      (entries.map Prod.fst).Nodup →
      (∀ p ∈ entries, alookup acc p.1 = Option.none) →
      dictFlatLoop g defaultRegistry .dictT entries acc = .ok ys →
      ∃ zs, ys = acc ++ zs ∧
        List.Forall₂ (fun p q => p.1 = q.1 ∧
            ∃ g', flatit g' defaultRegistry p.2 .noneT .none = .ok q.2)
          entries zs := by
  intro entries
  induction entries with
  | nil =>
    intro g acc ys _ _ h
    cases g with
    | zero =>
      rw [show dictFlatLoop 0 defaultRegistry .dictT [] acc =
        .error .fuelOut from rfl] at h
      exact Except.noConfusion h
    | succ g =>
      rw [show dictFlatLoop (g + 1) defaultRegistry .dictT [] acc =
        .ok acc from rfl] at h
      cases h
      exact ⟨[], by simp, List.Forall₂.nil⟩
  | cons p rest ih =>
    obtain ⟨k, v⟩ := p
    intro g acc ys hnd hfresh h
    have hndr : (rest.map Prod.fst).Nodup := by
      simp only [List.map_cons, List.nodup_cons] at hnd
      exact hnd.2
    cases g with
    | zero =>
      rw [show dictFlatLoop 0 defaultRegistry .dictT ((k, v) :: rest) acc =
        .error .fuelOut from rfl] at h
      exact Except.noConfusion h
    | succ g =>
      have hacc : alookup acc k = Option.none := hfresh (k, v) (by simp)
      have hck : cmCheckType defaultRegistry
          (getSubTypeFlatDict .dictT k) v = .ok () := rfl
      cases hfl : flatit g defaultRegistry v PTy.noneT PVal.none with
      | error e =>
        have hfl' : flatit g defaultRegistry v
            (getSubTypeFlatDict .dictT k)
            (match alookup acc k with
             | some sv => sv
             | Option.none => PVal.none) = .error e := by
          rw [hacc]
          exact hfl
        rw [dictFlatLoop_cons, hck, hfl'] at h
        exact Except.noConfusion h
      | ok fv =>
        have hfl' : flatit g defaultRegistry v
            (getSubTypeFlatDict .dictT k)
            (match alookup acc k with
             | some sv => sv
             | Option.none => PVal.none) = .ok fv := by
          rw [hacc]
          exact hfl
        have h' : dictFlatLoop g defaultRegistry .dictT rest
            (aset acc k fv) = .ok ys := by
          rw [dictFlatLoop_cons, hck, hfl'] at h
          exact h
        have hfresh' : ∀ p ∈ rest,
            alookup (aset acc k fv) p.1 = Option.none := by
          intro p hp
          have hpk : p.1 ≠ k := by
            rintro hpk1
            have hkm : k ∈ rest.map Prod.fst :=
              hpk1 ▸ List.mem_map_of_mem Prod.fst hp
            simp only [List.map_cons, List.nodup_cons] at hnd
            exact hnd.1 hkm
          rw [alookup_aset_other acc k p.1 fv hpk]
          exact hfresh p (by simp [hp])
        obtain ⟨zs, hys, hfa⟩ := ih g (aset acc k fv) ys hndr hfresh' h'
        refine ⟨(k, fv) :: zs, ?_, List.Forall₂.cons ⟨rfl, g, hfl⟩ hfa⟩
        rw [hys, aset_append_of_alookup_none acc k fv hacc]
        simp

/-- C5 (amended): with a container declared type that carries no element
type tag and is not a template (`list`, `dict`):
flattening — of a plain list as much as of a plain dict — treats each
element as *untyped*: it succeeds exactly by flattening each element
(each dict value, keys preserved) with no declared type, which dispatches
on the element's runtime type (pass-through only for unregistered runtime
types) — while unflattening any non-null tree with at least one entry always fails in
`get_sub_type`: with the `UnresolvableElementType` `Exception` when the
offending entry is a string, and with a `TypeError` otherwise (building the
exception message concatenates a `str` literal with the entry). -/
theorem c5_amended_unknown_element_type (xs : List PVal) :
    (∀ (F : Nat) (w : PVal),
      flatit F defaultRegistry (.list xs) .listT .none = .ok w →
      ∃ ys, w = .list ys ∧
        List.Forall₂
          (fun x y => ∃ g', flatit g' defaultRegistry x .noneT .none = .ok y)
          xs ys) ∧
    (∀ (F : Nat) (w : PVal) (m : List (String × PVal)),
      (m.map Prod.fst).Nodup →
      flatit F defaultRegistry (.dict m) .dictT .none = .ok w →
      ∃ ys, w = .dict ys ∧
        List.Forall₂ (fun p q => p.1 = q.1 ∧
            ∃ g', flatit g' defaultRegistry p.2 .noneT .none = .ok q.2)
          m ys) ∧
    (∀ (f : Nat) (x : PVal) (rest : List PVal),
      unflatit (f + 5) defaultRegistry (.list (x :: rest)) .listT .none =
        .error (cantGuessErr x)) ∧
    (∀ (f : Nat) (k : String) (v : PVal) (rest : List (String × PVal)),
      unflatit (f + 5) defaultRegistry (.dict ((k, v) :: rest)) .dictT
        .none = .error (cantGuessErr v)) := by
  refine ⟨?_, ?_, ?_, ?_⟩
  · intro F w h
    obtain ⟨F', rfl⟩ : ∃ F', F = F' + 4 := by
      rcases F with _ | F₁
      · exact absurd h (by rw [show flatit 0 defaultRegistry (.list xs)
          .listT .none = .error .fuelOut from rfl]; simp)
      rcases F₁ with _ | F₂
      · exact absurd h (by rw [show flatit 1 defaultRegistry (.list xs)
          .listT .none = .error .fuelOut from rfl]; simp)
      rcases F₂ with _ | F₃
      · exact absurd h (by rw [show flatit 2 defaultRegistry (.list xs)
          .listT .none = .error .fuelOut from rfl]; simp)
      rcases F₃ with _ | F₄
      · exact absurd h (by rw [show flatit 3 defaultRegistry (.list xs)
          .listT .none = .error .fuelOut from rfl]; simp)
      · exact ⟨F₄, by omega⟩
    cases hloop : listFlatLoop F' defaultRegistry .noneT xs [] with
    | error e =>
      rw [show flatit (F' + 4) defaultRegistry (.list xs) .listT .none =
        (match listFlatLoop F' defaultRegistry .noneT xs [] with
         | .error e => .error e
         | .ok ys => Except.ok (.list ys)) from rfl, hloop] at h
      exact Except.noConfusion h
    | ok ys =>
      have h' : (Except.ok (PVal.list ys) : Except PErr PVal) = .ok w := by
        rw [show flatit (F' + 4) defaultRegistry (.list xs) .listT .none =
          (match listFlatLoop F' defaultRegistry .noneT xs [] with
           | .error e => .error e
           | .ok ys => Except.ok (.list ys)) from rfl, hloop] at h
        exact h
      obtain ⟨zs, hys, hfa⟩ := listFlatLoop_untyped xs F' [] ys hloop
      cases h'
      exact ⟨ys, rfl, by simpa [hys] using hfa⟩
  · intro F w m hnd h
    obtain ⟨F', rfl⟩ : ∃ F', F = F' + 4 := by
      rcases F with _ | F₁
      · exact absurd h (by rw [show flatit 0 defaultRegistry (.dict m)
          .dictT .none = .error .fuelOut from rfl]; simp)
      rcases F₁ with _ | F₂
      · exact absurd h (by rw [show flatit 1 defaultRegistry (.dict m)
          .dictT .none = .error .fuelOut from rfl]; simp)
      rcases F₂ with _ | F₃
      · exact absurd h (by rw [show flatit 2 defaultRegistry (.dict m)
          .dictT .none = .error .fuelOut from rfl]; simp)
      rcases F₃ with _ | F₄
      · exact absurd h (by rw [show flatit 3 defaultRegistry (.dict m)
          .dictT .none = .error .fuelOut from rfl]; simp)
      · exact ⟨F₄, by omega⟩
    cases hloop : dictFlatLoop F' defaultRegistry .dictT m [] with
    | error e =>
      rw [show flatit (F' + 4) defaultRegistry (.dict m) .dictT .none =
        (match dictFlatLoop F' defaultRegistry .dictT m [] with
         | .error e => .error e
         | .ok ys => Except.ok (.dict ys)) from rfl, hloop] at h
      exact Except.noConfusion h
    | ok ys =>
      have h' : (Except.ok (PVal.dict ys) : Except PErr PVal) = .ok w := by
        rw [show flatit (F' + 4) defaultRegistry (.dict m) .dictT .none =
          (match dictFlatLoop F' defaultRegistry .dictT m [] with
           | .error e => .error e
           | .ok ys => Except.ok (.dict ys)) from rfl, hloop] at h
        exact h
      obtain ⟨zs, hys, hfa⟩ :=
        dictFlatLoop_untyped m F' [] ys hnd (fun p hp => rfl) hloop
      cases h'
      exact ⟨ys, rfl, by simpa [hys] using hfa⟩
  · intro f x rest
    rfl
  · intro f k v rest
    rfl

/-- Witness for C5 (amended): a date element flattens to its ISO string via
runtime-type dispatch, both as a plain-list element and as a plain-dict
value; unflattening `["x"]` fails with the `UnresolvableElementType`
exception, and `{"k": 1}` with a `TypeError`. -/
theorem c5_amended_witness :
    (∃ ys, PVal.list [.str ("2024-03-05")] = .list ys ∧
      List.Forall₂
        (fun x y => ∃ g', flatit g' defaultRegistry x .noneT .none = .ok y)
        [PVal.date 2024 3 5] ys) ∧
    (∃ ys, PVal.dict [("d", .str ("2024-03-05"))] = .dict ys ∧
      List.Forall₂ (fun p q => p.1 = q.1 ∧
          ∃ g', flatit g' defaultRegistry p.2 .noneT .none = .ok q.2)
        [(("d" : String), PVal.date 2024 3 5)] ys) ∧
    unflatit 5 defaultRegistry (.list [.str ("x")]) .listT .none =
      .error .cantGuess ∧
    unflatit 5 defaultRegistry (.dict [("k", .int 1)]) .dictT .none =
      .error .typeError := by
  refine ⟨?_, ?_, ?_, ?_⟩
  · exact (c5_amended_unknown_element_type [.date 2024 3 5]).1 20
      (.list [.str ("2024-03-05")]) rfl
  · exact (c5_amended_unknown_element_type []).2.1 20
      (.dict [("d", .str ("2024-03-05"))])
      [(("d" : String), PVal.date 2024 3 5)] (by simp) rfl
  · exact (c5_amended_unknown_element_type []).2.2.1 0 (.str ("x")) []
  · exact (c5_amended_unknown_element_type []).2.2.2 0 ("k") (.int 1) []

/-! ### C2 — merge law for `SchemaConverter.to_obj` -/

/-- Reading `hasattr` is unchanged by setting a different attribute. -/
theorem hasattrV_aset (cty : PTy) (a : List (String × PVal)) (k s : String)
    (w : PVal) (hs : s ≠ k) :
    hasattrV (.inst cty (aset a k w)) s = hasattrV (.inst cty a) s := by
  simp [hasattrV, alookup_aset_other a k s w hs]

/-- Reading `getattr` is unchanged by setting a different attribute. -/
theorem getattrV_aset (cty : PTy) (a : List (String × PVal)) (k s : String)
    (w : PVal) (hs : s ≠ k) :
    getattrV (.inst cty (aset a k w)) s = getattrV (.inst cty a) s := by
  simp [getattrV, alookup_aset_other a k s w hs]

/-- One step of the attribute loop of `SchemaConverter.to_obj`, when the
attribute's name is absent from the tree: the attribute is skipped. -/
theorem schemaObjLoop_cons_none (g : Nat) (reg : Registry) (n : String)
    (aty : PTy) (rest : List (String × PTy)) (m : List (String × PVal))
    (clsObj : PVal) (hm : alookup m n = Option.none) :
    schemaObjLoop (g + 1) reg ((n, aty) :: rest) m clsObj =
      schemaObjLoop g reg rest m clsObj := by
  show (match alookup m n with
        | Option.none => schemaObjLoop g reg rest m clsObj
        | some flatVal =>
          match unflatit g reg flatVal aty
              (if hasattrV clsObj n then getattrV clsObj n else .none) with
          | .error e => .error e
          | .ok conv =>
            match cmCheckType reg aty conv with
            | .error e => .error e
            | .ok _ =>
              match setattrV clsObj n conv with
              | .error e => .error e
              | .ok cls' => schemaObjLoop g reg rest m cls') =
      schemaObjLoop g reg rest m clsObj
  rw [hm]

/-- One step of the attribute loop of `SchemaConverter.to_obj`, when the
attribute's name is a key of the tree. -/
theorem schemaObjLoop_cons_some (g : Nat) (reg : Registry) (n : String)
    (aty : PTy) (rest : List (String × PTy)) (m : List (String × PVal))
    (clsObj : PVal) (fv : PVal) (hm : alookup m n = some fv) :
    schemaObjLoop (g + 1) reg ((n, aty) :: rest) m clsObj =
      (match unflatit g reg fv aty
          (if hasattrV clsObj n then getattrV clsObj n else .none) with
       | .error e => .error e
       | .ok conv =>
         match cmCheckType reg aty conv with
         | .error e => .error e
         | .ok _ =>
           match setattrV clsObj n conv with
           | .error e => .error e
           | .ok cls' => schemaObjLoop g reg rest m cls') := by
  show (match alookup m n with
        | Option.none => schemaObjLoop g reg rest m clsObj
        | some flatVal =>
          match unflatit g reg flatVal aty
              (if hasattrV clsObj n then getattrV clsObj n else .none) with
          | .error e => .error e
          | .ok conv =>
            match cmCheckType reg aty conv with
            | .error e => .error e
            | .ok _ =>
              match setattrV clsObj n conv with
              | .error e => .error e
              | .ok cls' => schemaObjLoop g reg rest m cls') = _
  rw [hm]

/-- The attribute loop of `SchemaConverter.to_obj` implements the merge
law: on success the target instance keeps its class, attributes without a
key in the tree keep their value, and each declared attribute with a key in
the tree holds exactly the recursively unflattened sub-value (whose merge
target is the `getattr` of the original instance at that attribute). -/
theorem schemaObjLoop_merge :
    ∀ (attrs : List (String × PTy)) (g : Nat) (m : List (String × PVal))
      (cty : PTy) (cAttrs : List (String × PVal)) (v : PVal),
      (attrs.map Prod.fst).Nodup →
      schemaObjLoop g defaultRegistry attrs m (.inst cty cAttrs) = .ok v →
      ∃ vAttrs, v = .inst cty vAttrs ∧
        (∀ s : String,
          (alookup m s = Option.none ∨ s ∉ attrs.map Prod.fst) →
          alookup vAttrs s = alookup cAttrs s) ∧
        (∀ p ∈ attrs, ∀ fv, alookup m p.1 = some fv →
          ∃ w g', unflatit g' defaultRegistry fv p.2
              (if hasattrV (.inst cty cAttrs) p.1
               then getattrV (.inst cty cAttrs) p.1 else .none) = .ok w ∧
            alookup vAttrs p.1 = some w) := by
  intro attrs
  induction attrs with
  | nil =>
    intro g m cty cAttrs v _ h
    cases g with
    | zero =>
      rw [show schemaObjLoop 0 defaultRegistry [] m (.inst cty cAttrs) =
        .error .fuelOut from rfl] at h
      exact Except.noConfusion h
    | succ g =>
      rw [show schemaObjLoop (g + 1) defaultRegistry [] m
        (.inst cty cAttrs) = .ok (.inst cty cAttrs) from rfl] at h
      cases h
      exact ⟨cAttrs, rfl, fun s _ => rfl, fun p hp => absurd hp (by simp)⟩
  | cons p rest ih =>
    obtain ⟨n, aty⟩ := p
    intro g m cty cAttrs v hnd h
    have hn : n ∉ rest.map Prod.fst := by
      simp only [List.map_cons, List.nodup_cons] at hnd
      exact hnd.1
    have hndr : (rest.map Prod.fst).Nodup := by
      simp only [List.map_cons, List.nodup_cons] at hnd
      exact hnd.2
    cases g with
    | zero =>
      rw [show schemaObjLoop 0 defaultRegistry ((n, aty) :: rest) m
        (.inst cty cAttrs) = .error .fuelOut from rfl] at h
      exact Except.noConfusion h
    | succ g =>
      cases hm : alookup m n with
      | none =>
        rw [schemaObjLoop_cons_none g defaultRegistry n aty rest m
          (.inst cty cAttrs) hm] at h
        obtain ⟨vAttrs, hv, ha, hb⟩ := ih g m cty cAttrs v hndr h
        refine ⟨vAttrs, hv, ?_, ?_⟩
        · intro s hs
          refine ha s ?_
          rcases hs with hs | hs
          · exact Or.inl hs
          · exact Or.inr (fun hmem => hs (by simp [hmem]))
        · intro q hq fv hfv
          rcases List.mem_cons.mp hq with rfl | hqr
          · rw [hm] at hfv
            exact Option.noConfusion hfv
          · exact hb q hqr fv hfv
      | some fv =>
        rw [schemaObjLoop_cons_some g defaultRegistry n aty rest m
          (.inst cty cAttrs) fv hm] at h
        cases hu : unflatit g defaultRegistry fv aty
            (if hasattrV (.inst cty cAttrs) n
             then getattrV (.inst cty cAttrs) n else .none) with
        | error e =>
          rw [hu] at h
          exact Except.noConfusion h
        | ok w =>
          have h2 : (match cmCheckType defaultRegistry aty w with
                     | Except.error e => Except.error e
                     | Except.ok _ =>
                       match setattrV (PVal.inst cty cAttrs) n w with
                       | Except.error e => Except.error e
                       | Except.ok cls' =>
                           schemaObjLoop g defaultRegistry rest m cls') =
              Except.ok v := by
            rw [hu] at h
            exact h
          cases hcx : cmCheckType defaultRegistry aty w with
          | error e =>
            rw [hcx] at h2
            exact Except.noConfusion h2
          | ok u =>
            have h' : schemaObjLoop g defaultRegistry rest m
                (.inst cty (aset cAttrs n w)) = .ok v := by
              rw [hcx] at h2
              exact h2
            obtain ⟨vAttrs, hv, ha, hb⟩ :=
              ih g m cty (aset cAttrs n w) v hndr h'
            refine ⟨vAttrs, hv, ?_, ?_⟩
            · intro s hs
              have hsn : s ≠ n := by
                rintro rfl
                rcases hs with hs | hs
                · rw [hm] at hs; exact Option.noConfusion hs
                · exact hs (by simp)
              have hstep : alookup vAttrs s = alookup (aset cAttrs n w) s := by
                refine ha s ?_
                rcases hs with hs | hs
                · exact Or.inl hs
                · exact Or.inr (fun hmem => hs (by simp [hmem]))
              rw [hstep, alookup_aset_other cAttrs n s w hsn]
            · intro q hq fv' hfv'
              rcases List.mem_cons.mp hq with rfl | hqr
              · rw [hm] at hfv'
                cases hfv'
                refine ⟨w, g, hu, ?_⟩
                have hvn : alookup vAttrs n = alookup (aset cAttrs n w) n :=
                  ha n (Or.inr hn)
                rw [hvn, alookup_aset_self]
              · have hqn : q.1 ≠ n := by
                  rintro hq1
                  exact hn (hq1 ▸ List.mem_map_of_mem Prod.fst hqr)
                obtain ⟨w', g', hu', hl'⟩ := hb q hqr fv' hfv'
                rw [hasattrV_aset cty cAttrs n q.1 w hqn,
                  getattrV_aset cty cAttrs n q.1 w hqn] at hu'
                exact ⟨w', g', hu', hl'⟩

/-- C2: merge law.  Whenever `unflatit(tree, T, existing)` on a record type
`T` (with distinct declared attribute names) returns a value, that value is
the existing instance itself — same class, and every attribute slot not
named by a key of the tree unchanged — while exactly the declared
attributes whose names are keys of the tree are overwritten with the
recursively unflattened sub-values (each recursion merging onto whatever
`getattr` yields on the existing instance for that attribute). -/
theorem c2_merge_law (F : Nat) (nm : String) (attrs : List (String × PTy))
    (m : List (String × PVal)) (cty : PTy)
    (eAttrs : List (String × PVal)) (v : PVal)
    (hnd : (attrs.map Prod.fst).Nodup)
    (hok : unflatit F defaultRegistry (.dict m) (.schemaT nm attrs)
      (.inst cty eAttrs) = .ok v) :
    ∃ vAttrs, v = .inst cty vAttrs ∧
      (∀ s : String,
        (alookup m s = Option.none ∨ s ∉ attrs.map Prod.fst) →
        alookup vAttrs s = alookup eAttrs s) ∧
      (∀ p ∈ attrs, ∀ fv, alookup m p.1 = some fv →
        ∃ w g', unflatit g' defaultRegistry fv p.2
            (if hasattrV (.inst cty eAttrs) p.1
             then getattrV (.inst cty eAttrs) p.1 else .none) = .ok w ∧
          alookup vAttrs p.1 = some w) := by
  obtain ⟨F', rfl⟩ : ∃ F', F = F' + 4 := by
    rcases F with _ | F₁
    · exact absurd hok (by
        rw [show unflatit 0 defaultRegistry (.dict m) (.schemaT nm attrs)
          (.inst cty eAttrs) = .error .fuelOut from rfl]
        simp)
    rcases F₁ with _ | F₂
    · exact absurd hok (by
        rw [show unflatit 1 defaultRegistry (.dict m) (.schemaT nm attrs)
          (.inst cty eAttrs) = .error .fuelOut from rfl]
        simp)
    rcases F₂ with _ | F₃
    · exact absurd hok (by
        rw [show unflatit 2 defaultRegistry (.dict m) (.schemaT nm attrs)
          (.inst cty eAttrs) = .error .fuelOut from rfl]
        simp)
    rcases F₃ with _ | F₄
    · exact absurd hok (by
        rw [show unflatit 3 defaultRegistry (.dict m) (.schemaT nm attrs)
          (.inst cty eAttrs) = .error .fuelOut from rfl]
        simp)
    · exact ⟨F₄, by omega⟩
  have hloop : schemaObjLoop F' defaultRegistry attrs m
      (.inst cty eAttrs) = .ok v := by
    rw [show unflatit (F' + 4) defaultRegistry (.dict m)
      (.schemaT nm attrs) (.inst cty eAttrs) =
      schemaObjLoop F' defaultRegistry attrs m (.inst cty eAttrs)
      from rfl] at hok
    exact hok
  exact schemaObjLoop_merge attrs F' m cty eAttrs v hnd hloop

/-- Witness for C2: merging the partial tree `{x: 7}` into the existing
`Point(x=3, y=4)` yields the same instance with `x` overwritten and `y`
untouched. -/
theorem c2_merge_law_witness :
    ∃ vAttrs,
      PVal.inst Point [("x", .int 7), ("y", .int 4)] = .inst Point vAttrs ∧
      (∀ s : String,
        (alookup [("x", PVal.int 7)] s = Option.none ∨
          s ∉ [("x", PTy.intT), ("y", PTy.intT)].map Prod.fst) →
        alookup vAttrs s = alookup [("x", PVal.int 3), ("y", PVal.int 4)] s) ∧
      (∀ p ∈ [("x", PTy.intT), ("y", PTy.intT)], ∀ fv,
        alookup [("x", PVal.int 7)] p.1 = some fv →
        ∃ w g', unflatit g' defaultRegistry fv p.2
            (if hasattrV (.inst Point [("x", PVal.int 3), ("y", PVal.int 4)])
                p.1
             then getattrV
                (.inst Point [("x", PVal.int 3), ("y", PVal.int 4)]) p.1
             else .none) = .ok w ∧
          alookup vAttrs p.1 = some w) :=
  c2_merge_law 20 ("Point") [("x", .intT), ("y", .intT)] [("x", .int 7)]
    Point [("x", .int 3), ("y", .int 4)]
    (.inst Point [("x", .int 7), ("y", .int 4)]) (by simp) rfl
